import Mathlib

/-!
# AM2302 / DHT22 driver (`src/am2302.c`): frame decoder, checksum, reader

A shallow embedding of `dht_check_checksum`, `dht_parse` and `dht_read`.

* `uint64_t`, `uint8_t`, `uint16_t`, `size_t` values are natural numbers, reduced
  `% 2 ^ w` where the C code truncates.
* `int16_t` values are integers; `to_int16` is the conversion of an unsigned
  value to `int16_t` (reduction modulo `2 ^ 16` into `-32768 .. 32767`).
* A pointer to `rmt_item32_t` is the list of items found from that address on;
  reading past the end of the list has no defined result (`none`).
* The hardware calls made by `dht_read` are recorded, in order, in a list of
  `Call`s; `ESP_LOGE` logging is not recorded.
-/

namespace AM2302

/-! ## Data model -/

/-- The error codes of `esp_err.h` that the driver returns. -/
inductive esp_err_t where
  | ESP_OK
  | ESP_ERR_INVALID_SIZE
  | ESP_ERR_INVALID_RESPONSE
  | ESP_ERR_INVALID_CRC
  deriving DecidableEq

open esp_err_t

/-- The RMT item of ESP-IDF (`driver/rmt.h`, not part of this repository): one
32-bit word holding, from the least significant bit up, `duration0 : 15`,
`level0 : 1`, `duration1 : 15`, `level1 : 1`. -/
structure rmt_item32_t where
  duration0 : Nat
  level0 : Nat
  duration1 : Nat
  level1 : Nat
  deriving DecidableEq

/-- The 32-bit word `val` of an item (the other member of the union). -/
def rmt_item32_t.val (it : rmt_item32_t) : Nat :=
  it.duration0 % 2 ^ 15 + (it.level0 % 2) * 2 ^ 15
    + (it.duration1 % 2 ^ 15) * 2 ^ 16 + (it.level1 % 2) * 2 ^ 31

/-- The item stored in a 32-bit word. -/
def rmt_item32_t.ofVal (v : Nat) : rmt_item32_t :=
  { duration0 := v % 2 ^ 15
    level0 := v / 2 ^ 15 % 2
    duration1 := v / 2 ^ 16 % 2 ^ 15
    level1 := v / 2 ^ 31 % 2 }

/-- Conversion of an unsigned value to `int16_t`, as in `*h = ...` and `*t = ...`. -/
def to_int16 (x : Nat) : Int :=
  if x % 2 ^ 16 < 2 ^ 15 then ((x % 2 ^ 16 : Nat) : Int) else ((x % 2 ^ 16 : Nat) : Int) - 2 ^ 16

/-! ## `dht_check_checksum` -/

/-- One iteration of the loop body `sum += 0xFF & (bits >> (i << 3));` with `sum`
a `uint8_t`. -/
def dht_check_checksum_step (bits : Nat) (sum i : Nat) : Nat :=
  (sum + (0xFF &&& (bits >>> (i <<< 3)))) % 2 ^ 8

/-- The value of `sum` after `for (uint8_t i = 1; i < 5; i++)`, started from
`sum = 0x00`: the body runs for `i = 1, 2, 3, 4`. -/
def dht_check_checksum_sum (bits : Nat) : Nat :=
  [1, 2, 3, 4].foldl (dht_check_checksum_step bits) 0x00

/-- Lines 59 to 67: `return sum == (uint8_t)(bits & 0xFF) ? ESP_OK : ESP_ERR_INVALID_CRC;`. -/
def dht_check_checksum (bits : Nat) : esp_err_t :=
  if dht_check_checksum_sum bits = (bits &&& 0xFF) % 2 ^ 8 then ESP_OK else ESP_ERR_INVALID_CRC

/-! ## `dht_parse` -/

/-- The classification `(abs((uint16_t)items->duration1 - 70) <= 5) ? 1ULL : 0ULL`:
the cast reduces modulo `2 ^ 16`, the subtraction and `abs` are on `int`. -/
def dht_parse_bit (it : rmt_item32_t) : Nat :=
  if Int.natAbs (((it.duration1 % 2 ^ 16 : Nat) : Int) - 70) ≤ 5 then 1 else 0

/-- The loop `for (ssize_t i = 39; i >= 0; i--) { bits |= (...) << i; items++; }`.
The first argument is `i + 1`, the number of iterations still to run, so the
loop ends when it is `0` and the shift amount is its predecessor; `items++` is
the tail of the list. Entered as `dht_parse_loop 40 items 0`. -/
def dht_parse_loop : Nat → List rmt_item32_t → Nat → Option Nat
  | 0, _, bits => some bits
  | _ + 1, [], _ => none
  | i + 1, it :: items, bits =>
      dht_parse_loop i items (bits ||| ((dht_parse_bit it <<< i) % 2 ^ 64))

/-- What a call leaves behind: the returned `esp_err_t` and the values of `*t`
and `*h` after the call. -/
structure Outcome where
  err : esp_err_t
  t : Int
  h : Int
  deriving DecidableEq

/-- Lines 97 and 98, the stores `*h = (0xFFFF) & bits >> 24;` and
`*t = (0xFFFF) & bits >> 8;` (in C `>>` binds tighter than `&`): the pair
`(*t, *h)` they write. -/
def dht_parse_fields (bits : Nat) : Int × Int :=
  (to_int16 (0xFFFF &&& (bits >>> 8)), to_int16 (0xFFFF &&& (bits >>> 24)))

/-- Lines 69 to 101. `t` and `h` are the values of `*t` and `*h` on entry. -/
def dht_parse (items : List rmt_item32_t) (t h : Int) : Option Outcome :=
  match dht_parse_loop 40 items 0x0 with
  | none => none
  | some bits =>
      let checksum_result := dht_check_checksum bits
      if checksum_result ≠ ESP_OK then
        some { err := checksum_result, t := t, h := h }
      else
        some { err := checksum_result
               t := (dht_parse_fields bits).1
               h := (dht_parse_fields bits).2 }

/-! ## `dht_read` -/

/-- What `xRingbufferReceive(ringbuf_handle, &len_items, 4)` hands back: the
returned pointer (`none` for `NULL`, otherwise the items stored from that
address on) and the value it stores through `&len_items`, if it stores one. -/
structure Capture where
  items : Option (List rmt_item32_t)
  item_size : Option Nat

/-- The calls `dht_read` makes, with their arguments other than the fixed pin,
channel and ring buffer handle. -/
inductive Call where
  | gpio_set_level (level : Nat)
  | rmt_rx_start (rx_idx_rst : Bool)
  | ets_delay_us (us : Nat)
  | xRingbufferReceive (ticks : Nat)
  | rmt_rx_stop
  | dht_parse (items : List rmt_item32_t)
  | vRingbufferReturnItem (item : Option (List rmt_item32_t))
  deriving DecidableEq

/-- The memory occupied by an array of items, as 16-bit halves in address order
(little endian: the low half of `val` comes first). -/
def rmt_halfwords (buf : List rmt_item32_t) : List Nat :=
  buf.flatMap fun it => [it.val % 2 ^ 16, it.val / 2 ^ 16 % 2 ^ 16]

/-- The items read through a `const rmt_item32_t *` that points at the first of
the given 16-bit halves. An item needs two halves. -/
def rmt_items_at : List Nat → List rmt_item32_t
  | lo :: hi :: rest => rmt_item32_t.ofVal (lo + hi * 2 ^ 16) :: rmt_items_at rest
  | _ => []

/-- The argument `(void *)(items + 1) + sizeof(uint16_t)` of line 149: the pointer
is advanced by one item (4 bytes) and then by 2 bytes, 3 halves in all. -/
def dht_read_parse_arg (buf : List rmt_item32_t) : List rmt_item32_t :=
  rmt_items_at ((rmt_halfwords buf).drop (2 * 1 + 1))

/-- The calls of lines 108 to 116, in program order. -/
def dht_read_acquire : List Call :=
  [ Call.gpio_set_level 0
  , Call.rmt_rx_start true
  , Call.ets_delay_us 800
  , Call.gpio_set_level 1
  , Call.xRingbufferReceive 4
  , Call.rmt_rx_stop ]

/-- Lines 103 to 155. `t` and `h` are the values of `*t` and `*h` on entry; the
result is the outcome together with the calls made, in order. `len_items`
starts at `0` and holds the stored size if the receive stored one. -/
def dht_read (cap : Capture) (t h : Int) : Option (Outcome × List Call) :=
  let len_items := cap.item_size.getD 0
  if len_items < 42 then
    some ({ err := ESP_ERR_INVALID_SIZE, t := t, h := h },
          dht_read_acquire ++ [Call.vRingbufferReturnItem cap.items])
  else
    match cap.items with
    | none =>
        some ({ err := ESP_ERR_INVALID_RESPONSE, t := t, h := h },
              dht_read_acquire ++ [Call.vRingbufferReturnItem none])
    | some buf =>
        match dht_parse (dht_read_parse_arg buf) t h with
        | none => none
        | some out =>
            some (out, dht_read_acquire ++
              [Call.dht_parse (dht_read_parse_arg buf), Call.vRingbufferReturnItem (some buf)])

/-- The behaviour of `xRingbufferReceive` of ESP-IDF (the FreeRTOS ring buffer,
not part of this repository) on the RMT ring buffer. On a timeout it returns
`NULL` and stores nothing through `&len_items`; otherwise it returns the
received items and stores their size in bytes, `sizeof(rmt_item32_t) = 4` for
each item. -/
def xRingbufferReceive_capture (received : Option (List rmt_item32_t)) : Capture :=
  match received with
  | none => { items := none, item_size := none }
  | some buf => { items := some buf, item_size := some (4 * buf.length) }

/-! ## Vocabulary of the specification -/

/-- Byte `k` of a frame, bits `[8k+7 : 8k]`. -/
def frame_byte (frame k : Nat) : Nat :=
  frame / 2 ^ (8 * k) % 256

/-- A pulse train that spells the 40 bits of `frame`, most significant bit
first, in `duration1`: `70` for a 1 bit and `short` for a 0 bit. -/
def spell_frame (frame short : Nat) : List rmt_item32_t :=
  (List.range 40).map fun i =>
    { duration0 := 50, level0 := 0
      duration1 := if frame.testBit (39 - i) then 70 else short, level1 := 1 }

/-- The 16-bit two's-complement pattern of an `int16_t` value. -/
def uint16_pattern (x : Int) : Nat :=
  (x % 2 ^ 16).toNat

/-- The 40-bit frame with humidity pattern `H` in bits `[39:24]`, temperature
pattern `T` in bits `[23:8]` and checksum byte `C` in bits `[7:0]`. -/
def frame_of (H T C : Nat) : Nat :=
  H * 2 ^ 24 + T * 2 ^ 8 + C

/-- The sum modulo 256 of the four bytes of the patterns `H` and `T`. -/
def checksum_of (H T : Nat) : Nat :=
  (H / 256 + H % 256 + T / 256 + T % 256) % 256

/-- A capture of 42 items whose items 2 to 41 carry the 40 bits of `frame`, most
significant bit first, in `duration0` (`70` for a 1 bit, `short` for a 0 bit);
items 0 and 1 stand for what precedes the data. -/
def capture_frame (frame short : Nat) : List rmt_item32_t :=
  [ { duration0 := 25, level0 := 0, duration1 := 80, level1 := 1 }
  , { duration0 := 80, level0 := 0, duration1 := 50, level1 := 1 } ] ++
  (List.range 40).map fun i =>
    { duration0 := if frame.testBit (39 - i) then 70 else short, level0 := 1
      duration1 := 50, level1 := 0 }

/-- The capture receive, `xRingbufferReceive`. -/
def Call.isReceive : Call → Bool
  | Call.xRingbufferReceive _ => true
  | _ => false

/-- The release of a buffer to the ring buffer, `vRingbufferReturnItem`. -/
def Call.isRelease : Call → Bool
  | Call.vRingbufferReturnItem _ => true
  | _ => false

/-- The invocation of the frame decoder, `dht_parse`. -/
def Call.isParse : Call → Bool
  | Call.dht_parse _ => true
  | _ => false

/-- The acquisition steps: line level, delay, capture start, capture wait,
capture stop. -/
def Call.isAcquisition : Call → Bool
  | Call.gpio_set_level _ => true
  | Call.rmt_rx_start _ => true
  | Call.ets_delay_us _ => true
  | Call.xRingbufferReceive _ => true
  | Call.rmt_rx_stop => true
  | _ => false

/-- The order of the acquisition steps as the specification words it: line low,
delay, line high, capture start, capture wait, capture stop. -/
def spec_acquisition_order : List Call :=
  [ Call.gpio_set_level 0
  , Call.ets_delay_us 800
  , Call.gpio_set_level 1
  , Call.rmt_rx_start true
  , Call.xRingbufferReceive 4
  , Call.rmt_rx_stop ]

/-- Whether a duration lies in the band `65 .. 75`, both ends included. -/
def in_band (d : Nat) : Bool :=
  decide (65 ≤ d ∧ d ≤ 75)

/-- The frame with bit `k` flipped. -/
def flip_bit (frame k : Nat) : Nat :=
  frame ^^^ 2 ^ k

/-! ## Auxiliary lemmas -/

theorem dht_parse_bit_eq_one_iff (it : rmt_item32_t) (h15 : it.duration1 < 2 ^ 15) :
    dht_parse_bit it = 1 ↔ 65 ≤ it.duration1 ∧ it.duration1 ≤ 75 := by
  unfold dht_parse_bit
  have hmod : it.duration1 % 2 ^ 16 = it.duration1 := Nat.mod_eq_of_lt (by omega)
  rw [hmod]
  split <;> omega

theorem dht_parse_bit_le_one (it : rmt_item32_t) : dht_parse_bit it = 0 ∨ dht_parse_bit it = 1 := by
  unfold dht_parse_bit
  split <;> simp

theorem testBit_dht_parse_bit_shift (it : rmt_item32_t) (i j : Nat) (hi : i < 64) :
    ((dht_parse_bit it <<< i) % 2 ^ 64).testBit j
      = (decide (j = i) && decide (dht_parse_bit it = 1)) := by
  rw [Nat.testBit_mod_two_pow, Nat.testBit_shiftLeft]
  rcases dht_parse_bit_le_one it with h | h <;> rw [h]
  · simp
  · by_cases hji : j = i
    · subst hji; simp [hi]
    · by_cases hge : j ≥ i
      · have : j - i ≠ 0 := by omega
        have h1 : Nat.testBit 1 (j - i) = false := by
          cases hb : Nat.testBit 1 (j - i)
          · rfl
          · exact absurd (Nat.testBit_one_eq_true_iff_self_eq_zero.mp hb) this
        simp [hji, h1]
      · simp [hji, hge]

theorem dht_parse_loop_testBit : ∀ (n : Nat) (items : List rmt_item32_t) (bits : Nat),
    n ≤ 64 → n ≤ items.length →
    ∃ r, dht_parse_loop n items bits = some r ∧
      ∀ j, r.testBit j = (bits.testBit j ||
        (decide (j < n) && decide (dht_parse_bit (items.getD (n - 1 - j) ⟨0, 0, 0, 0⟩) = 1))) := by
  intro n
  induction n with
  | zero =>
    intro items bits _ _
    exact ⟨bits, rfl, by simp⟩
  | succ n ih =>
    intro items bits h64 hlen
    cases items with
    | nil => simp at hlen
    | cons it rest =>
      have hlen2 : n ≤ rest.length := by simpa using hlen
      obtain ⟨r, hr, hbits⟩ := ih rest (bits ||| ((dht_parse_bit it <<< n) % 2 ^ 64)) (by omega) hlen2
      refine ⟨r, by simpa [dht_parse_loop] using hr, ?_⟩
      intro j
      rw [hbits j, Nat.testBit_lor, testBit_dht_parse_bit_shift it n j (by omega)]
      rcases Nat.lt_trichotomy j n with hj | hj | hj
      · have e : n - j = (n - 1 - j) + 1 := by omega
        have hne : j ≠ n := by omega
        have hlt : j < n + 1 := by omega
        simp [e, hj, hne, hlt]
      · subst hj
        simp
      · have hne : j ≠ n := by omega
        have h1 : ¬ j < n := by omega
        have h2 : ¬ j < n + 1 := by omega
        simp [hne, h1, h2]


theorem land_0xFF (x : Nat) : 0xFF &&& x = x % 256 := by
  rw [Nat.and_comm]
  exact Nat.and_pow_two_sub_one_eq_mod x 8

theorem land_0xFFFF (x : Nat) : 0xFFFF &&& x = x % 65536 := by
  rw [Nat.and_comm]
  exact Nat.and_pow_two_sub_one_eq_mod x 16

theorem dht_check_checksum_sum_eq (bits : Nat) :
    dht_check_checksum_sum bits
      = (bits / 2 ^ 8 % 256 + bits / 2 ^ 16 % 256 + bits / 2 ^ 24 % 256 + bits / 2 ^ 32 % 256) % 256 := by
  have s1 : (1 : Nat) <<< 3 = 8 := by decide
  have s2 : (2 : Nat) <<< 3 = 16 := by decide
  have s3 : (3 : Nat) <<< 3 = 24 := by decide
  have s4 : (4 : Nat) <<< 3 = 32 := by decide
  simp only [dht_check_checksum_sum, List.foldl, dht_check_checksum_step, land_0xFF, s1, s2, s3, s4,
    Nat.shiftRight_eq_div_pow]
  omega

theorem dht_check_checksum_ok_iff (bits : Nat) :
    dht_check_checksum bits = ESP_OK ↔
      bits % 256
        = (bits / 2 ^ 8 % 256 + bits / 2 ^ 16 % 256 + bits / 2 ^ 24 % 256 + bits / 2 ^ 32 % 256) % 256 := by
  unfold dht_check_checksum
  rw [dht_check_checksum_sum_eq, Nat.and_comm, land_0xFF]
  split
  · constructor
    · intro _; omega
    · intro _; rfl
  · constructor
    · intro h; cases h
    · intro h; omega

theorem dht_check_checksum_cases (bits : Nat) :
    dht_check_checksum bits = ESP_OK ∨ dht_check_checksum bits = ESP_ERR_INVALID_CRC := by
  unfold dht_check_checksum
  split <;> simp


theorem dht_check_checksum_mod_40 (bits : Nat) :
    dht_check_checksum (bits % 2 ^ 40) = dht_check_checksum bits := by
  have b0 : bits % 2 ^ 40 % 256 = bits % 256 := by omega
  have b1 : bits % 2 ^ 40 / 2 ^ 8 % 256 = bits / 2 ^ 8 % 256 := by omega
  have b2 : bits % 2 ^ 40 / 2 ^ 16 % 256 = bits / 2 ^ 16 % 256 := by omega
  have b3 : bits % 2 ^ 40 / 2 ^ 24 % 256 = bits / 2 ^ 24 % 256 := by omega
  have b4 : bits % 2 ^ 40 / 2 ^ 32 % 256 = bits / 2 ^ 32 % 256 := by omega
  unfold dht_check_checksum
  rw [dht_check_checksum_sum_eq, dht_check_checksum_sum_eq, Nat.and_comm, land_0xFF,
    Nat.and_comm, land_0xFF, b0, b1, b2, b3, b4]


theorem to_int16_of_lt (p : Nat) (hp : p < 2 ^ 16) :
    (to_int16 p < 0 ↔ 2 ^ 15 ≤ p) ∧ to_int16 p % 2 ^ 16 = (p : Int) ∧
      (p < 2 ^ 15 → to_int16 p = (p : Int)) := by
  unfold to_int16
  have hmod : p % 2 ^ 16 = p := Nat.mod_eq_of_lt hp
  rw [hmod]
  split <;> refine ⟨?_, ?_, ?_⟩ <;> omega

theorem to_int16_uint16_pattern (x : Int) (hlo : -2 ^ 15 ≤ x) (hhi : x < 2 ^ 15) :
    to_int16 (uint16_pattern x) = x := by
  unfold to_int16 uint16_pattern
  have h1 : ((x % 2 ^ 16).toNat : Int) = x % 2 ^ 16 := Int.toNat_of_nonneg (by omega)
  have h2 : (x % 2 ^ 16).toNat < 2 ^ 16 := by omega
  rw [Nat.mod_eq_of_lt h2]
  split <;> omega

theorem uint16_pattern_lt (x : Int) : uint16_pattern x < 2 ^ 16 := by
  unfold uint16_pattern
  omega

theorem dht_parse_fields_eq (bits : Nat) :
    dht_parse_fields bits
      = (to_int16 (bits / 2 ^ 8 % 2 ^ 16), to_int16 (bits / 2 ^ 24 % 2 ^ 16)) := by
  unfold dht_parse_fields
  rw [land_0xFFFF, land_0xFFFF, Nat.shiftRight_eq_div_pow, Nat.shiftRight_eq_div_pow]
  norm_num

theorem dht_parse_fields_frame_of (H T C : Nat) (hH : H < 2 ^ 16) (hT : T < 2 ^ 16)
    (hC : C < 2 ^ 8) : dht_parse_fields (frame_of H T C) = (to_int16 T, to_int16 H) := by
  rw [dht_parse_fields_eq]
  unfold frame_of
  have e1 : (H * 2 ^ 24 + T * 2 ^ 8 + C) / 2 ^ 8 % 2 ^ 16 = T := by omega
  have e2 : (H * 2 ^ 24 + T * 2 ^ 8 + C) / 2 ^ 24 % 2 ^ 16 = H := by omega
  rw [e1, e2]

theorem dht_parse_of_loop (items : List rmt_item32_t) (t h : Int) (bits : Nat)
    (hloop : dht_parse_loop 40 items 0 = some bits) :
    dht_parse items t h
      = if dht_check_checksum bits ≠ ESP_OK then
          some { err := dht_check_checksum bits, t := t, h := h }
        else
          some { err := dht_check_checksum bits
                 t := (dht_parse_fields bits).1
                 h := (dht_parse_fields bits).2 } := by
  unfold dht_parse
  rw [show (0x0 : Nat) = 0 from rfl, hloop]


theorem dht_parse_loop_spelled (items : List rmt_item32_t) (frame : Nat)
    (hlen : items.length = 40) (hframe : frame < 2 ^ 40)
    (hspell : ∀ (i : Nat) (hi : i < items.length),
      if frame.testBit (39 - i) = true then items[i].duration1 = 70
      else items[i].duration1 < 2 ^ 15 ∧ ¬ (65 ≤ items[i].duration1 ∧ items[i].duration1 ≤ 75)) :
    dht_parse_loop 40 items 0 = some frame := by
  obtain ⟨bits, hrun, hbit⟩ := dht_parse_loop_testBit 40 items 0 (by omega) (by omega)
  rw [hrun]
  congr 1
  apply Nat.eq_of_testBit_eq
  intro j
  rw [hbit j]
  by_cases hj : j < 40
  · have hi : 39 - j < items.length := by omega
    have hidx : 40 - 1 - j = 39 - j := by omega
    have hback : 39 - (39 - j) = j := by omega
    have hget : items.getD (39 - j) ⟨0, 0, 0, 0⟩ = items[39 - j] := by
      simp [List.getD_eq_getElem?_getD, List.getElem?_eq_getElem hi]
    have hs := hspell (39 - j) hi
    rw [hback] at hs
    rw [hidx, hget]
    simp only [Nat.zero_testBit, Bool.false_or, hj, decide_True, Bool.true_and]
    by_cases hb : frame.testBit j = true
    · rw [if_pos hb] at hs
      have h15 : items[39 - j].duration1 < 2 ^ 15 := by rw [hs]; norm_num
      have := (dht_parse_bit_eq_one_iff _ h15).mpr (by rw [hs]; omega)
      simp [this, hb]
    · rw [if_neg hb] at hs
      have := mt (dht_parse_bit_eq_one_iff _ hs.1).mp hs.2
      simp [this, hb]
  · have hlt : frame < 2 ^ j :=
      Nat.lt_of_lt_of_le hframe (Nat.pow_le_pow_right (by omega) (by omega))
    simp [hj, Nat.testBit_lt_two_pow hlt]

theorem frame_of_lt (H T C : Nat) (hH : H < 2 ^ 16) (hT : T < 2 ^ 16) (hC : C < 2 ^ 8) :
    frame_of H T C < 2 ^ 40 := by
  unfold frame_of
  omega

theorem dht_check_checksum_frame_of (H T : Nat) (hH : H < 2 ^ 16) (hT : T < 2 ^ 16) :
    dht_check_checksum (frame_of H T (checksum_of H T)) = ESP_OK := by
  rw [dht_check_checksum_ok_iff]
  have hC : checksum_of H T < 256 := by unfold checksum_of; omega
  generalize hc : checksum_of H T = C at hC ⊢
  have e0 : frame_of H T C % 256 = C := by unfold frame_of; omega
  have e1 : frame_of H T C / 2 ^ 8 % 256 = T % 256 := by unfold frame_of; omega
  have e2 : frame_of H T C / 2 ^ 16 % 256 = T / 256 := by unfold frame_of; omega
  have e3 : frame_of H T C / 2 ^ 24 % 256 = H % 256 := by unfold frame_of; omega
  have e4 : frame_of H T C / 2 ^ 32 % 256 = H / 256 := by unfold frame_of; omega
  rw [e0, e1, e2, e3, e4, ← hc]
  unfold checksum_of
  omega


theorem dht_parse_checksum_fail_aux (items : List rmt_item32_t) (t h : Int) (bits : Nat)
    (hloop : dht_parse_loop 40 items 0 = some bits) (hbad : dht_check_checksum bits ≠ ESP_OK) :
    dht_parse items t h = some { err := ESP_ERR_INVALID_CRC, t := t, h := h } := by
  rw [dht_parse_of_loop items t h bits hloop, if_pos hbad]
  rcases dht_check_checksum_cases bits with hc | hc
  · exact absurd hc hbad
  · rw [hc]


theorem rmt_halfwords_length (buf : List rmt_item32_t) :
    (rmt_halfwords buf).length = 2 * buf.length := by
  induction buf with
  | nil => rfl
  | cons it rest ih =>
    have : rmt_halfwords (it :: rest)
        = [it.val % 2 ^ 16, it.val / 2 ^ 16 % 2 ^ 16] ++ rmt_halfwords rest := by
      simp [rmt_halfwords]
    rw [this, List.length_append, ih]
    simp
    omega

theorem rmt_items_at_length : ∀ (n : Nat) (l : List Nat), l.length ≤ n →
    (rmt_items_at l).length = l.length / 2 := by
  intro n
  induction n using Nat.strong_induction_on with
  | _ n ih =>
    intro l hl
    match l, hl with
    | [], _ => simp [rmt_items_at]
    | [_], _ => simp [rmt_items_at]
    | lo :: hi :: rest, hl =>
      have hrest : rest.length ≤ n - 2 := by simp at hl; omega
      have hlt : n - 2 < n := by simp at hl; omega
      have := ih (n - 2) hlt rest hrest
      simp [rmt_items_at, this]
      omega

theorem dht_read_parse_arg_length (buf : List rmt_item32_t) :
    (dht_read_parse_arg buf).length = (2 * buf.length - 3) / 2 := by
  unfold dht_read_parse_arg
  rw [rmt_items_at_length _ _ (Nat.le_refl _), List.length_drop, rmt_halfwords_length]

theorem dht_parse_defined (items : List rmt_item32_t) (t h : Int) (hlen : 40 ≤ items.length) :
    ∃ r, dht_parse items t h = some r := by
  obtain ⟨bits, hrun, _⟩ := dht_parse_loop_testBit 40 items 0 (by omega) hlen
  rw [dht_parse_of_loop items t h bits hrun]
  split <;> exact ⟨_, rfl⟩

theorem dht_read_cases (cap : Capture) (t h : Int)
    (hbuf : ∀ buf, cap.items = some buf → 42 ≤ cap.item_size.getD 0 → 42 ≤ buf.length) :
    ∃ out mid, dht_read cap t h
        = some (out, dht_read_acquire ++ mid ++ [Call.vRingbufferReturnItem cap.items]) ∧
      (mid = [] ∨ ∃ items, mid = [Call.dht_parse items]) := by
  by_cases hshort : cap.item_size.getD 0 < 42
  · exact ⟨{ err := ESP_ERR_INVALID_SIZE, t := t, h := h }, [],
      by simp [dht_read, hshort], Or.inl rfl⟩
  · cases hitems : cap.items with
    | none =>
      exact ⟨{ err := ESP_ERR_INVALID_RESPONSE, t := t, h := h }, [],
        by simp [dht_read, hshort, hitems], Or.inl rfl⟩
    | some buf =>
      have hlen : 40 ≤ (dht_read_parse_arg buf).length := by
        have := hbuf buf hitems (by omega)
        rw [dht_read_parse_arg_length]
        omega
      obtain ⟨r, hr⟩ := dht_parse_defined (dht_read_parse_arg buf) t h hlen
      exact ⟨r, [Call.dht_parse (dht_read_parse_arg buf)],
        by simp [dht_read, hshort, hitems, hr], Or.inr ⟨_, rfl⟩⟩


theorem dht_parse_bit_in_band (it : rmt_item32_t) (h15 : it.duration1 < 2 ^ 15) :
    decide (dht_parse_bit it = 1) = in_band it.duration1 := by
  unfold in_band
  exact decide_eq_decide.mpr (dht_parse_bit_eq_one_iff it h15)

theorem dht_parse_loop_band (items : List rmt_item32_t) (hlen : items.length = 40)
    (h15 : ∀ it ∈ items, it.duration1 < 2 ^ 15) :
    ∃ bits, dht_parse_loop 40 items 0 = some bits ∧
      (∀ (i : Nat) (hi : i < items.length), bits.testBit (39 - i) = in_band items[i].duration1) ∧
      ∀ j, 40 ≤ j → bits.testBit j = false := by
  obtain ⟨bits, hrun, hbit⟩ := dht_parse_loop_testBit 40 items 0 (by omega) (by omega)
  refine ⟨bits, hrun, ?_, ?_⟩
  · intro i hi
    have h39 : 39 - i < 40 := by omega
    have hidx : 40 - 1 - (39 - i) = i := by omega
    have hget : items.getD i ⟨0, 0, 0, 0⟩ = items[i] := by
      simp [List.getD_eq_getElem?_getD, List.getElem?_eq_getElem hi]
    rw [hbit (39 - i), hidx, hget, dht_parse_bit_in_band _ (h15 _ (List.getElem_mem _))]
    simp [h39]
  · intro j hj
    have : ¬ j < 40 := by omega
    simp [hbit j, this]

theorem dht_parse_cases (items : List rmt_item32_t) (t h : Int) (hlen : 40 ≤ items.length) :
    ∃ r, dht_parse items t h = some r ∧ (r.err = ESP_OK ∨ r.err = ESP_ERR_INVALID_CRC) := by
  obtain ⟨bits, hrun, _⟩ := dht_parse_loop_testBit 40 items 0 (by omega) hlen
  rw [dht_parse_of_loop items t h bits hrun]
  rcases dht_check_checksum_cases bits with hc | hc
  · exact ⟨_, by rw [hc]; simp; rfl, Or.inl rfl⟩
  · exact ⟨_, by rw [hc]; simp; rfl, Or.inr rfl⟩


theorem frame_byte_testBit (x i j : Nat) :
    (frame_byte x i).testBit j = (decide (j < 8) && x.testBit (8 * i + j)) := by
  unfold frame_byte
  rw [show (256 : Nat) = 2 ^ 8 from rfl, Nat.testBit_mod_two_pow, ← Nat.shiftRight_eq_div_pow,
    Nat.testBit_shiftRight]

theorem frame_byte_lt (x i : Nat) : frame_byte x i < 256 := by
  unfold frame_byte
  exact Nat.mod_lt _ (by norm_num)

theorem frame_byte_flip_bit (frame k i : Nat) :
    frame_byte (flip_bit frame k) i
      = if i = k / 8 then frame_byte frame i ^^^ 2 ^ (k % 8) else frame_byte frame i := by
  apply Nat.eq_of_testBit_eq
  intro j
  unfold flip_bit
  by_cases hi : i = k / 8
  · rw [if_pos hi, frame_byte_testBit, Nat.testBit_xor, Nat.testBit_xor, frame_byte_testBit,
      Nat.testBit_two_pow, Nat.testBit_two_pow]
    by_cases hj : j < 8
    · have : (k = 8 * i + j) ↔ (k % 8 = j) := by omega
      simp [hj, this]
    · have : ¬ k % 8 = j := by omega
      simp [hj, this]
  · rw [if_neg hi, frame_byte_testBit, Nat.testBit_xor, frame_byte_testBit, Nat.testBit_two_pow]
    by_cases hj : j < 8
    · have : ¬ k = 8 * i + j := by omega
      simp [hj, this]
    · simp [hj]

theorem dht_check_checksum_ok_iff_frame_byte (frame : Nat) :
    dht_check_checksum frame = ESP_OK ↔
      frame_byte frame 0
        = (frame_byte frame 1 + frame_byte frame 2 + frame_byte frame 3
            + frame_byte frame 4) % 256 := by
  rw [dht_check_checksum_ok_iff]
  simp only [frame_byte, Nat.mul_zero, Nat.pow_zero, Nat.div_one, Nat.mul_one]

theorem xor_two_pow_byte (x e : Nat) (hx : x < 256) (he : e < 8) :
    x ^^^ 2 ^ e < 256 ∧ x ^^^ 2 ^ e ≠ x := by
  constructor
  · have h2 : 2 ^ e < 2 ^ 8 := Nat.pow_lt_pow_right (by norm_num) he
    exact Nat.xor_lt_two_pow (by simpa using hx) h2
  · intro h
    have h0 : x ^^^ 2 ^ e = x ^^^ 0 := by rw [h, Nat.xor_zero]
    have := Nat.xor_right_inj.mp h0
    exact absurd this (by positivity)

theorem dht_check_checksum_flip_bit (frame k : Nat) (hk : k < 40)
    (hok : dht_check_checksum frame = ESP_OK) :
    dht_check_checksum (flip_bit frame k) = ESP_ERR_INVALID_CRC := by
  rcases dht_check_checksum_cases (flip_bit frame k) with hc | hc
  · exfalso
    rw [dht_check_checksum_ok_iff_frame_byte] at hok hc
    have hk8 : k / 8 < 5 := by omega
    have he : k % 8 < 8 := Nat.mod_lt _ (by norm_num)
    have f0 := frame_byte_flip_bit frame k 0
    have f1 := frame_byte_flip_bit frame k 1
    have f2 := frame_byte_flip_bit frame k 2
    have f3 := frame_byte_flip_bit frame k 3
    have f4 := frame_byte_flip_bit frame k 4
    have l0 := frame_byte_lt frame 0
    have l1 := frame_byte_lt frame 1
    have l2 := frame_byte_lt frame 2
    have l3 := frame_byte_lt frame 3
    have l4 := frame_byte_lt frame 4
    have x0 := xor_two_pow_byte _ _ l0 he
    have x1 := xor_two_pow_byte _ _ l1 he
    have x2 := xor_two_pow_byte _ _ l2 he
    have x3 := xor_two_pow_byte _ _ l3 he
    have x4 := xor_two_pow_byte _ _ l4 he
    generalize k / 8 = q at hk8 f0 f1 f2 f3 f4
    rw [f0, f1, f2, f3, f4] at hc
    interval_cases q <;> simp at hc <;> omega
  · exact hc


theorem dht_parse_ok_inv (items : List rmt_item32_t) (t h : Int) (r : Outcome)
    (hr : dht_parse items t h = some r) (hok : r.err = ESP_OK) :
    ∃ bits, dht_parse_loop 40 items 0 = some bits ∧ dht_check_checksum bits = ESP_OK := by
  cases hloop : dht_parse_loop 40 items 0 with
  | none =>
    unfold dht_parse at hr
    rw [show (0x0 : Nat) = 0 from rfl, hloop] at hr
    cases hr
  | some bits =>
    rw [dht_parse_of_loop items t h bits hloop] at hr
    split at hr
    · rename_i hne
      injection hr with hr
      subst hr
      exact absurd hok hne
    · rename_i hne
      exact ⟨bits, rfl, not_not.mp hne⟩


theorem rmt_halfwords_cons (it : rmt_item32_t) (rest : List rmt_item32_t) :
    rmt_halfwords (it :: rest)
      = it.val % 2 ^ 16 :: it.val / 2 ^ 16 % 2 ^ 16 :: rmt_halfwords rest := by
  simp [rmt_halfwords]

theorem rmt_halfwords_getElem? : ∀ (buf : List rmt_item32_t) (k : Nat) (hk : k < buf.length),
    (rmt_halfwords buf)[2 * k]? = some (buf[k].val % 2 ^ 16) ∧
    (rmt_halfwords buf)[2 * k + 1]? = some (buf[k].val / 2 ^ 16 % 2 ^ 16) := by
  intro buf
  induction buf with
  | nil => intro k hk; simp at hk
  | cons it rest ih =>
    intro k hk
    rw [rmt_halfwords_cons]
    cases k with
    | zero => simp
    | succ k =>
      have hk2 : k < rest.length := by simpa using hk
      have e1 : 2 * (k + 1) = (2 * k) + 1 + 1 := by omega
      rw [e1]
      simpa using ih k hk2

theorem rmt_items_at_getElem? : ∀ (i : Nat) (l : List Nat) (lo hi : Nat),
    l[2 * i]? = some lo → l[2 * i + 1]? = some hi →
    (rmt_items_at l)[i]? = some (rmt_item32_t.ofVal (lo + hi * 2 ^ 16)) := by
  intro i
  induction i with
  | zero =>
    intro l lo hi hlo hhi
    match l, hlo, hhi with
    | a :: b :: rest, hlo, hhi =>
      simp at hlo hhi
      simp [rmt_items_at, hlo, hhi]
  | succ i ih =>
    intro l lo hi hlo hhi
    have e1 : 2 * (i + 1) = (2 * i) + 1 + 1 := by omega
    have e2 : 2 * (i + 1) + 1 = (2 * i + 1) + 1 + 1 := by omega
    rw [e1] at hlo
    rw [e2] at hhi
    match l, hlo, hhi with
    | [], hlo, _ => simp at hlo
    | [_], hlo, _ => simp at hlo
    | a :: b :: rest, hlo, hhi =>
      simp only [List.getElem?_cons_succ] at hlo hhi
      simpa [rmt_items_at] using ih rest lo hi hlo hhi

theorem dht_read_parse_arg_getElem? (buf : List rmt_item32_t) (i : Nat)
    (hi : i + 2 < buf.length) :
    (dht_read_parse_arg buf)[i]?
      = some (rmt_item32_t.ofVal
          (buf[i + 1].val / 2 ^ 16 % 2 ^ 16 + (buf[i + 2].val % 2 ^ 16) * 2 ^ 16)) := by
  unfold dht_read_parse_arg
  apply rmt_items_at_getElem?
  · rw [List.getElem?_drop]
    have e : 2 * 1 + 1 + 2 * i = 2 * (i + 1) + 1 := by omega
    rw [e]
    exact (rmt_halfwords_getElem? buf (i + 1) (by omega)).2
  · rw [List.getElem?_drop]
    have e : 2 * 1 + 1 + (2 * i + 1) = 2 * (i + 2) := by omega
    rw [e]
    exact (rmt_halfwords_getElem? buf (i + 2) (by omega)).1

theorem ofVal_duration1 (lo hi : Nat) (hlo : lo < 2 ^ 16) :
    (rmt_item32_t.ofVal (lo + hi * 2 ^ 16)).duration1 = hi % 2 ^ 15 := by
  unfold rmt_item32_t.ofVal
  simp only
  omega

theorem val_low_half (it : rmt_item32_t) : it.val % 2 ^ 16 % 2 ^ 15 = it.duration0 % 2 ^ 15 := by
  unfold rmt_item32_t.val
  omega


theorem dht_parse_loop_congr : ∀ (n : Nat) (l1 l2 : List rmt_item32_t) (bits : Nat),
    (∀ i, i < n → l1[i]? = l2[i]?) → dht_parse_loop n l1 bits = dht_parse_loop n l2 bits := by
  intro n
  induction n with
  | zero => intro l1 l2 bits _; rfl
  | succ n ih =>
    intro l1 l2 bits hsame
    have h0 := hsame 0 (by omega)
    match l1, l2, h0, hsame with
    | [], [], _, _ => rfl
    | [], _ :: _, h0, _ => simp at h0
    | _ :: _, [], h0, _ => simp at h0
    | a :: r1, b :: r2, h0, hsame =>
      have hab : a = b := by simpa using h0
      subst hab
      simp only [dht_parse_loop]
      apply ih
      intro i hi
      simpa using hsame (i + 1) (by omega)

theorem dht_read_parse_arg_duration1 (buf : List rmt_item32_t) (i : Nat)
    (hi : i + 2 < buf.length) :
    ∃ it, (dht_read_parse_arg buf)[i]? = some it ∧
      it.duration1 = buf[i + 2].duration0 % 2 ^ 15 := by
  refine ⟨_, dht_read_parse_arg_getElem? buf i hi, ?_⟩
  rw [ofVal_duration1 _ _ (Nat.mod_lt _ (by norm_num)), val_low_half]

theorem dht_read_parse_arg_take (buf : List rmt_item32_t) (i : Nat) (hi : i < 40)
    (hlen : 42 ≤ buf.length) :
    (dht_read_parse_arg buf)[i]? = (dht_read_parse_arg (buf.take 42))[i]? := by
  have hlt : (buf.take 42).length = 42 := by simp [List.length_take]; omega
  rw [dht_read_parse_arg_getElem? buf i (by omega),
    dht_read_parse_arg_getElem? (buf.take 42) i (by omega)]
  simp [List.getElem_take]

/-- The branch of line 118: when the value left in `len_items` is below 42,
`dht_read` returns `ESP_ERR_INVALID_SIZE`, makes no call of `dht_parse`, and
leaves `*t` and `*h` unchanged. -/
theorem dht_read_incomplete (cap : Capture) (t h : Int) (hshort : cap.item_size.getD 0 < 42) :
    ∃ calls, dht_read cap t h
        = some ({ err := ESP_ERR_INVALID_SIZE, t := t, h := h }, calls) ∧
      calls.filter Call.isParse = [] ∧
      calls = dht_read_acquire ++ [Call.vRingbufferReturnItem cap.items] := by
  refine ⟨_, ?_, ?_, rfl⟩
  · simp [dht_read, hshort]
  · simp [dht_read_acquire, List.filter, Call.isParse]

/-! ## The claims -/

/-- C1: for 40 pulses with 15-bit durations the decoding loop of `dht_parse`
yields a frame below `2 ^ 40` whose bit `39 - i` is set exactly when
`65 ≤ d[i] ≤ 75`; pulse 0 lands in bit 39 and pulse 39 in bit 0. -/
theorem dht_parse_loop_frame (items : List rmt_item32_t) (hlen : items.length = 40)
    (h15 : ∀ it ∈ items, it.duration1 < 2 ^ 15) :
    ∃ bits, dht_parse_loop 40 items 0 = some bits ∧ bits < 2 ^ 40 ∧
      ∀ (i : Nat) (hi : i < items.length),
        (bits.testBit (39 - i) = true ↔ 65 ≤ items[i].duration1 ∧ items[i].duration1 ≤ 75) := by
  obtain ⟨bits, hrun, hbit⟩ := dht_parse_loop_testBit 40 items 0 (by omega) (by omega)
  refine ⟨bits, hrun, ?_, ?_⟩
  · apply Nat.lt_pow_two_of_testBit
    intro j hj
    have : ¬ j < 40 := by omega
    simp [hbit j, this]
  · intro i hi
    have hi40 : i < 40 := by omega
    have h39 : 39 - i < 40 := by omega
    have hidx : 40 - 1 - (39 - i) = i := by omega
    rw [hbit (39 - i), hidx]
    have hget : items.getD i ⟨0, 0, 0, 0⟩ = items[i] := by
      simp [List.getD_eq_getElem?_getD, List.getElem?_eq_getElem hi]
    rw [hget]
    simp only [Nat.zero_testBit, Bool.false_or, h39, decide_True, Bool.true_and, decide_eq_true_eq]
    exact dht_parse_bit_eq_one_iff _ (h15 _ (List.getElem_mem _))

/-- Witness of C1 on the pulse train of the frame `0x019000C859`. -/
theorem dht_parse_loop_frame_witness :
    (spell_frame 0x019000C859 25).length = 40 ∧
    (∀ it ∈ spell_frame 0x019000C859 25, it.duration1 < 2 ^ 15) ∧
    ∃ bits, dht_parse_loop 40 (spell_frame 0x019000C859 25) 0 = some bits ∧ bits < 2 ^ 40 ∧
      ∀ (i : Nat) (hi : i < (spell_frame 0x019000C859 25).length),
        (bits.testBit (39 - i) = true ↔
          65 ≤ (spell_frame 0x019000C859 25)[i].duration1 ∧
            (spell_frame 0x019000C859 25)[i].duration1 ≤ 75) :=
  ⟨by decide, by decide, dht_parse_loop_frame (spell_frame 0x019000C859 25) (by decide) (by decide)⟩

/-- C2, as stated, fails: the frame `0x0100000000` (byte 4 is `1`, bytes 0 to 3
are `0`) has byte0 equal to `(byte1 + byte2 + byte3) mod 256`, yet
`dht_check_checksum` rejects it. -/
theorem dht_check_checksum_three_byte_counterexample :
    (0x0100000000 : Nat) < 2 ^ 40 ∧
    ¬ (dht_check_checksum 0x0100000000 = ESP_OK ↔
        frame_byte 0x0100000000 0
          = (frame_byte 0x0100000000 1 + frame_byte 0x0100000000 2
              + frame_byte 0x0100000000 3) % 256) := by
  decide

/-- C2, amended: for every 40-bit frame `dht_check_checksum` reports success
exactly when byte0 equals `(byte1 + byte2 + byte3 + byte4) mod 256`, byte `k`
being bits `[8k+7 : 8k]`. -/
theorem dht_check_checksum_frame_iff (frame : Nat) (_h40 : frame < 2 ^ 40) :
    dht_check_checksum frame = ESP_OK ↔
      frame_byte frame 0
        = (frame_byte frame 1 + frame_byte frame 2 + frame_byte frame 3
            + frame_byte frame 4) % 256 := by
  rw [dht_check_checksum_ok_iff]
  simp only [frame_byte, Nat.mul_zero, Nat.pow_zero, Nat.div_one, Nat.mul_one]

/-- Witness of the amended C2 on the frame `0x019000C859`. -/
theorem dht_check_checksum_frame_iff_witness :
    (0x019000C859 : Nat) < 2 ^ 40 ∧
    (dht_check_checksum 0x019000C859 = ESP_OK ↔
      frame_byte 0x019000C859 0
        = (frame_byte 0x019000C859 1 + frame_byte 0x019000C859 2 + frame_byte 0x019000C859 3
            + frame_byte 0x019000C859 4) % 256) :=
  ⟨by decide, dht_check_checksum_frame_iff 0x019000C859 (by decide)⟩

/-- C3: for every 64-bit argument `dht_check_checksum` returns `ESP_OK` exactly
when bits `[7:0]` equal the sum modulo 256 of the four bytes `[15:8]`, `[23:16]`,
`[31:24]`, `[39:32]`, and `ESP_ERR_INVALID_CRC` otherwise; the wrapping 8-bit
accumulator equals the unbounded sum reduced modulo 256; bits 40 to 63 have no
influence on the result. -/
theorem dht_check_checksum_spec (bits : Nat) (_h64 : bits < 2 ^ 64) :
    (dht_check_checksum bits = ESP_OK ↔
      bits % 2 ^ 8
        = (bits / 2 ^ 8 % 2 ^ 8 + bits / 2 ^ 16 % 2 ^ 8 + bits / 2 ^ 24 % 2 ^ 8
            + bits / 2 ^ 32 % 2 ^ 8) % 256) ∧
    (dht_check_checksum bits = ESP_ERR_INVALID_CRC ↔
      bits % 2 ^ 8
        ≠ (bits / 2 ^ 8 % 2 ^ 8 + bits / 2 ^ 16 % 2 ^ 8 + bits / 2 ^ 24 % 2 ^ 8
            + bits / 2 ^ 32 % 2 ^ 8) % 256) ∧
    dht_check_checksum_sum bits
      = (bits / 2 ^ 8 % 2 ^ 8 + bits / 2 ^ 16 % 2 ^ 8 + bits / 2 ^ 24 % 2 ^ 8
          + bits / 2 ^ 32 % 2 ^ 8) % 256 ∧
    (∀ other : Nat, other < 2 ^ 64 → other % 2 ^ 40 = bits % 2 ^ 40 →
      dht_check_checksum other = dht_check_checksum bits) := by
  have hiff := dht_check_checksum_ok_iff bits
  refine ⟨by simpa using hiff, ?_, by simpa using dht_check_checksum_sum_eq bits, ?_⟩
  · rcases dht_check_checksum_cases bits with h | h
    · have := hiff.mp h
      simp only [h, false_iff, reduceCtorEq]
      norm_num
      omega
    · have hne : dht_check_checksum bits ≠ ESP_OK := by rw [h]; simp
      have := mt hiff.mpr hne
      simp only [h, true_iff]
      norm_num
      omega
  · intro other _ hsame
    rw [← dht_check_checksum_mod_40 other, ← dht_check_checksum_mod_40 bits, hsame]

/-- Witness of C3 on the argument `0xABCDEF019000C859`, whose bits 40 to 63 are
not zero. -/
theorem dht_check_checksum_spec_witness :
    (0xABCDEF019000C859 : Nat) < 2 ^ 64 ∧
    dht_check_checksum 0xABCDEF019000C859 = ESP_OK ∧
    dht_check_checksum_sum 0xABCDEF019000C859 = 0x59 ∧
    dht_check_checksum 0x019000C859 = dht_check_checksum 0xABCDEF019000C859 :=
  ⟨by decide,
   (dht_check_checksum_spec 0xABCDEF019000C859 (by decide)).1.mpr (by decide),
   (dht_check_checksum_spec 0xABCDEF019000C859 (by decide)).2.2.1.trans (by decide),
   (dht_check_checksum_spec 0xABCDEF019000C859 (by decide)).2.2.2 0x019000C859 (by decide) (by decide)⟩

/-- C4: whenever `dht_parse` returns `ESP_OK`, the humidity written is frame bits
`[39:24]` and the temperature written is frame bits `[23:8]` of the decoded
frame, each converted to `int16_t` (negative exactly for patterns from `0x8000`
on); and on the frame `H * 2 ^ 24 + T * 2 ^ 8 + C` the field stores yield the
`int16_t` values with patterns `T` and `H`, whatever the checksum byte `C`. -/
theorem dht_parse_fields_spec (items : List rmt_item32_t) (t0 h0 : Int) (r : Outcome)
    (hr : dht_parse items t0 h0 = some r) (hok : r.err = ESP_OK)
    (H T C : Nat) (hH : H < 2 ^ 16) (hT : T < 2 ^ 16) (hC : C < 2 ^ 8) :
    (∃ bits, dht_parse_loop 40 items 0 = some bits ∧
      (r.t, r.h) = dht_parse_fields bits ∧
      r.h = to_int16 (bits / 2 ^ 24 % 2 ^ 16) ∧
      r.t = to_int16 (bits / 2 ^ 8 % 2 ^ 16) ∧
      (r.h < 0 ↔ 0x8000 ≤ bits / 2 ^ 24 % 2 ^ 16) ∧
      (r.t < 0 ↔ 0x8000 ≤ bits / 2 ^ 8 % 2 ^ 16) ∧
      r.h % 2 ^ 16 = ((bits / 2 ^ 24 % 2 ^ 16 : Nat) : Int) ∧
      r.t % 2 ^ 16 = ((bits / 2 ^ 8 % 2 ^ 16 : Nat) : Int)) ∧
    dht_parse_fields (frame_of H T C) = (to_int16 T, to_int16 H) ∧
    to_int16 H % 2 ^ 16 = (H : Int) ∧ to_int16 T % 2 ^ 16 = (T : Int) ∧
    (∀ C2 : Nat, C2 < 2 ^ 8 → dht_parse_fields (frame_of H T C2) = dht_parse_fields (frame_of H T C)) := by
  refine ⟨?_, dht_parse_fields_frame_of H T C hH hT hC, (to_int16_of_lt H hH).2.1,
    (to_int16_of_lt T hT).2.1, ?_⟩
  · cases hloop : dht_parse_loop 40 items 0 with
    | none =>
      unfold dht_parse at hr
      rw [show (0x0 : Nat) = 0 from rfl, hloop] at hr
      cases hr
    | some bits =>
      rw [dht_parse_of_loop items t0 h0 bits hloop] at hr
      split at hr
      · rename_i hne
        injection hr with hr
        subst hr
        exact absurd hok hne
      · injection hr with hr
        subst hr
        have hf := dht_parse_fields_eq bits
        have hh := to_int16_of_lt (bits / 2 ^ 24 % 2 ^ 16) (Nat.mod_lt _ (by norm_num))
        have ht := to_int16_of_lt (bits / 2 ^ 8 % 2 ^ 16) (Nat.mod_lt _ (by norm_num))
        refine ⟨bits, rfl, rfl, ?_, ?_, ?_, ?_, ?_, ?_⟩
        · simp [hf]
        · simp [hf]
        · simpa [hf] using hh.1
        · simpa [hf] using ht.1
        · simpa [hf] using hh.2.1
        · simpa [hf] using ht.2.1
  · intro C2 hC2
    rw [dht_parse_fields_frame_of H T C2 hH hT hC2, dht_parse_fields_frame_of H T C hH hT hC]

/-- Witness of C4: the pulse train of `0x019000C859` and the frame built from
humidity `0xFF38`, temperature `0x8001` and checksum byte `0xAB`. -/
theorem dht_parse_fields_spec_witness :
    dht_parse (spell_frame 0x019000C859 25) 7 9 = some ⟨ESP_OK, 200, 400⟩ ∧
    (∃ bits, dht_parse_loop 40 (spell_frame 0x019000C859 25) 0 = some bits ∧
      ((200, 400) : Int × Int) = dht_parse_fields bits) ∧
    dht_parse_fields (frame_of 0xFF38 0x8001 0xAB) = (-32767, -200) ∧
    dht_parse_fields (frame_of 0xFF38 0x8001 0x00) = dht_parse_fields (frame_of 0xFF38 0x8001 0xAB) :=
  ⟨by decide,
   (dht_parse_fields_spec (spell_frame 0x019000C859 25) 7 9 ⟨ESP_OK, 200, 400⟩ (by decide) rfl
      0xFF38 0x8001 0xAB (by decide) (by decide) (by decide)).1.imp fun _ hb => ⟨hb.1, hb.2.1⟩,
   (dht_parse_fields_spec (spell_frame 0x019000C859 25) 7 9 ⟨ESP_OK, 200, 400⟩ (by decide) rfl
      0xFF38 0x8001 0xAB (by decide) (by decide) (by decide)).2.1.trans (by decide),
   (dht_parse_fields_spec (spell_frame 0x019000C859 25) 7 9 ⟨ESP_OK, 200, 400⟩ (by decide) rfl
      0xFF38 0x8001 0xAB (by decide) (by decide) (by decide)).2.2.2.2 0x00 (by decide)⟩

/-- C5: end-to-end round trip of `dht_parse`. For `int16_t` values `H` and `T`
with 16-bit patterns `pH` and `pT` and `C` the sum modulo 256 of the four bytes
of the patterns, every train of 40 pulses that spells the frame `pH, pT, C`
most significant bit first, with duration 70 for a 1 bit and a 15-bit duration
outside `65 .. 75` for a 0 bit, is parsed with `ESP_OK`, temperature `T` and
humidity `H`. -/
theorem dht_parse_round_trip (H T : Int)
    (hH : -2 ^ 15 ≤ H ∧ H < 2 ^ 15) (hT : -2 ^ 15 ≤ T ∧ T < 2 ^ 15)
    (items : List rmt_item32_t) (t0 h0 : Int) (hlen : items.length = 40)
    (hspell : ∀ (i : Nat) (hi : i < items.length),
      if (frame_of (uint16_pattern H) (uint16_pattern T)
            (checksum_of (uint16_pattern H) (uint16_pattern T))).testBit (39 - i) = true
      then items[i].duration1 = 70
      else items[i].duration1 < 2 ^ 15 ∧ ¬ (65 ≤ items[i].duration1 ∧ items[i].duration1 ≤ 75)) :
    dht_parse items t0 h0 = some { err := ESP_OK, t := T, h := H } := by
  have hpH := uint16_pattern_lt H
  have hpT := uint16_pattern_lt T
  have hC : checksum_of (uint16_pattern H) (uint16_pattern T) < 2 ^ 8 := by
    unfold checksum_of; omega
  have hloop := dht_parse_loop_spelled items _ hlen (frame_of_lt _ _ _ hpH hpT hC) hspell
  rw [dht_parse_of_loop items t0 h0 _ hloop, dht_check_checksum_frame_of _ _ hpH hpT,
    dht_parse_fields_frame_of _ _ _ hpH hpT hC,
    to_int16_uint16_pattern H hH.1 hH.2, to_int16_uint16_pattern T hT.1 hT.2]
  simp

/-- Witness of C5: humidity `0x0190`, temperature `0x00C8`, checksum `0x59`
yield temperature 200 and humidity 400. -/
theorem dht_parse_round_trip_witness :
    frame_of (uint16_pattern 400) (uint16_pattern 200)
        (checksum_of (uint16_pattern 400) (uint16_pattern 200)) = 0x019000C859 ∧
    checksum_of 0x0190 0x00C8 = 0x59 ∧
    dht_parse (spell_frame 0x019000C859 25) 7 9 = some { err := ESP_OK, t := 200, h := 400 } :=
  ⟨by decide, by decide,
   dht_parse_round_trip 400 200 (by decide) (by decide) (spell_frame 0x019000C859 25) 7 9
     (by decide) (by decide)⟩

/-- C6: for every 40-pulse input whose decoded frame fails the checksum,
`dht_parse` returns `ESP_ERR_INVALID_CRC` and leaves `*t` and `*h` as they were;
and `dht_read`, on a capture that passes the length and null checks and whose
pulses decode to a frame that fails the checksum, returns `ESP_ERR_INVALID_CRC`
with `*t` and `*h` unchanged. -/
theorem dht_parse_checksum_fail (items : List rmt_item32_t) (t h : Int) (bits : Nat)
    (_hlen : items.length = 40)
    (hloop : dht_parse_loop 40 items 0 = some bits) (hbad : dht_check_checksum bits ≠ ESP_OK)
    (buf : List rmt_item32_t) (n : Nat) (hn : 42 ≤ n) (bits2 : Nat)
    (hloop2 : dht_parse_loop 40 (dht_read_parse_arg buf) 0 = some bits2)
    (hbad2 : dht_check_checksum bits2 ≠ ESP_OK) :
    dht_parse items t h = some { err := ESP_ERR_INVALID_CRC, t := t, h := h } ∧
    dht_read { items := some buf, item_size := some n } t h
      = some ({ err := ESP_ERR_INVALID_CRC, t := t, h := h },
              dht_read_acquire ++
                [Call.dht_parse (dht_read_parse_arg buf), Call.vRingbufferReturnItem (some buf)]) := by
  refine ⟨dht_parse_checksum_fail_aux items t h bits hloop hbad, ?_⟩
  have hp := dht_parse_checksum_fail_aux (dht_read_parse_arg buf) t h bits2 hloop2 hbad2
  have hn2 : ¬ n < 42 := by omega
  simp [dht_read, hn2, hp]

/-- Witness of C6: the frame for humidity `0x0190`, temperature `0x00C8` with
checksum byte `0x00` instead of `0x59`. -/
theorem dht_parse_checksum_fail_witness :
    dht_parse (spell_frame 0x019000C800 25) 7 9
      = some { err := ESP_ERR_INVALID_CRC, t := 7, h := 9 } ∧
    dht_read { items := some (capture_frame 0x019000C800 25), item_size := some 42 } 7 9
      = some ({ err := ESP_ERR_INVALID_CRC, t := 7, h := 9 },
              dht_read_acquire ++
                [Call.dht_parse (dht_read_parse_arg (capture_frame 0x019000C800 25)),
                 Call.vRingbufferReturnItem (some (capture_frame 0x019000C800 25))]) :=
  dht_parse_checksum_fail (spell_frame 0x019000C800 25) 7 9 0x019000C800 (by decide) (by decide)
    (by decide) (capture_frame 0x019000C800 25) 42 (by decide) 0x019000C800 (by decide) (by decide)

/-- C7 on the code: `xRingbufferReceive` stores the size in bytes, so a capture
of 41 items leaves 164 in `len_items`. The check `len_items < 42` of line 118
does not fire, `dht_read` does not return `ESP_ERR_INVALID_SIZE`, and it calls
`dht_parse` on a pointer through which only 39 items can be read, so the 40th
read lies past the buffer and the call has no defined result. A capture of 10
items (40 bytes) is turned away by line 118, one of 11 items (44 bytes) is
not. -/
theorem dht_read_41_items_passes_length_check :
    (xRingbufferReceive_capture (some ((capture_frame 0x019000C859 25).take 41))).item_size
      = some 164 ∧
    ¬ ((xRingbufferReceive_capture
          (some ((capture_frame 0x019000C859 25).take 41))).item_size.getD 0 < 42) ∧
    (dht_read_parse_arg ((capture_frame 0x019000C859 25).take 41)).length = 39 ∧
    dht_parse (dht_read_parse_arg ((capture_frame 0x019000C859 25).take 41)) 7 9 = none ∧
    dht_read (xRingbufferReceive_capture (some ((capture_frame 0x019000C859 25).take 41))) 7 9
      = none ∧
    dht_read (xRingbufferReceive_capture (some ((capture_frame 0x019000C859 25).take 41))) 7 9
      ≠ some ({ err := ESP_ERR_INVALID_SIZE, t := 7, h := 9 },
              dht_read_acquire ++
                [Call.vRingbufferReturnItem (some ((capture_frame 0x019000C859 25).take 41))]) ∧
    dht_read (xRingbufferReceive_capture (some ((capture_frame 0x019000C859 25).take 10))) 7 9
      = some ({ err := ESP_ERR_INVALID_SIZE, t := 7, h := 9 },
              dht_read_acquire ++
                [Call.vRingbufferReturnItem (some ((capture_frame 0x019000C859 25).take 10))]) ∧
    dht_read (xRingbufferReceive_capture (some ((capture_frame 0x019000C859 25).take 11))) 7 9
      = none := by
  refine ⟨by decide, by decide, by decide, by decide, by decide, by decide, by decide, by decide⟩

/-- C8 on the code: when `xRingbufferReceive` returns `NULL` and leaves
`len_items` at its initial `0`, `dht_read` returns `ESP_ERR_INVALID_SIZE`, not
`ESP_ERR_INVALID_RESPONSE`: the length check of line 118 comes first. -/
theorem dht_read_null_returns_invalid_size (t h : Int) :
    dht_read { items := none, item_size := none } t h
      = some ({ err := ESP_ERR_INVALID_SIZE, t := t, h := h },
              dht_read_acquire ++ [Call.vRingbufferReturnItem none]) ∧
    (dht_read { items := none, item_size := none } t h).map (fun r => r.1.err)
      ≠ some ESP_ERR_INVALID_RESPONSE := by
  have h0 : dht_read { items := none, item_size := none } t h
      = some ({ err := ESP_ERR_INVALID_SIZE, t := t, h := h },
              dht_read_acquire ++ [Call.vRingbufferReturnItem none]) := by
    simp [dht_read]
  refine ⟨h0, ?_⟩
  rw [h0]
  simp

/-- C9: on every path through `dht_read` (length failure, null buffer, checksum
failure, success) the calls made contain exactly one `xRingbufferReceive` and
exactly one `vRingbufferReturnItem`, of the received pointer; the release comes
after the receive and is the last call before `dht_read` returns. The buffer
of a capture that passes the length check is taken to hold the 42 items the
parser reads. -/
theorem dht_read_receive_release (cap : Capture) (t h : Int)
    (hbuf : ∀ buf, cap.items = some buf → 42 ≤ cap.item_size.getD 0 → 42 ≤ buf.length) :
    ∃ r, dht_read cap t h = some r ∧
      r.2.filter Call.isReceive = [Call.xRingbufferReceive 4] ∧
      r.2.filter Call.isRelease = [Call.vRingbufferReturnItem cap.items] ∧
      ∃ pre mid, r.2 = pre ++ [Call.xRingbufferReceive 4] ++ mid
                        ++ [Call.vRingbufferReturnItem cap.items] ∧
        pre.filter Call.isRelease = [] ∧ mid.filter Call.isRelease = [] := by
  obtain ⟨out, mid, hrun, hmid⟩ := dht_read_cases cap t h hbuf
  refine ⟨_, hrun, ?_, ?_,
    [Call.gpio_set_level 0, Call.rmt_rx_start true, Call.ets_delay_us 800, Call.gpio_set_level 1],
    Call.rmt_rx_stop :: mid, ?_, ?_, ?_⟩
  · rcases hmid with hm | ⟨items, hm⟩ <;> subst hm <;>
      simp [dht_read_acquire, List.filter, Call.isReceive]
  · rcases hmid with hm | ⟨items, hm⟩ <;> subst hm <;>
      simp [dht_read_acquire, List.filter, Call.isRelease]
  · simp [dht_read_acquire]
  · simp [List.filter, Call.isRelease]
  · rcases hmid with hm | ⟨items, hm⟩ <;> subst hm <;>
      simp [List.filter, Call.isRelease]

/-- Witness of C9 on the four paths: a short capture, a null buffer reported
with a length, a frame that fails the checksum, a valid frame. -/
theorem dht_read_receive_release_witness :
    (∃ r, dht_read ⟨some ((capture_frame 0x019000C859 25).take 41), some 41⟩ 7 9 = some r ∧
      r.2.filter Call.isReceive = [Call.xRingbufferReceive 4] ∧
      r.2.filter Call.isRelease
        = [Call.vRingbufferReturnItem (some ((capture_frame 0x019000C859 25).take 41))]) ∧
    (∃ r, dht_read ⟨none, some 42⟩ 7 9 = some r ∧
      r.2.filter Call.isReceive = [Call.xRingbufferReceive 4] ∧
      r.2.filter Call.isRelease = [Call.vRingbufferReturnItem none]) ∧
    (∃ r, dht_read ⟨some (capture_frame 0x019000C800 25), some 42⟩ 7 9
        = some r ∧
      r.2.filter Call.isReceive = [Call.xRingbufferReceive 4] ∧
      r.2.filter Call.isRelease
        = [Call.vRingbufferReturnItem (some (capture_frame 0x019000C800 25))]) ∧
    (∃ r, dht_read ⟨some (capture_frame 0x019000C859 25), some 42⟩ 7 9
        = some r ∧
      r.2.filter Call.isReceive = [Call.xRingbufferReceive 4] ∧
      r.2.filter Call.isRelease
        = [Call.vRingbufferReturnItem (some (capture_frame 0x019000C859 25))]) :=
  ⟨(dht_read_receive_release ⟨some ((capture_frame 0x019000C859 25).take 41), some 41⟩ 7 9 (by intro buf _ hn; exact absurd hn (by decide))).imp
      fun _ hr => ⟨hr.1, hr.2.1, hr.2.2.1⟩,
   (dht_read_receive_release ⟨none, some 42⟩ 7 9
      (by intro buf hb; cases hb)).imp fun _ hr => ⟨hr.1, hr.2.1, hr.2.2.1⟩,
   (dht_read_receive_release ⟨some (capture_frame 0x019000C800 25), some 42⟩ 7 9 (by intro buf hb _; cases hb; decide)).imp
      fun _ hr => ⟨hr.1, hr.2.1, hr.2.2.1⟩,
   (dht_read_receive_release ⟨some (capture_frame 0x019000C859 25), some 42⟩ 7 9 (by intro buf hb _; cases hb; decide)).imp
      fun _ hr => ⟨hr.1, hr.2.1, hr.2.2.1⟩⟩

/-- C10, as stated, fails: on a valid capture the acquisition calls of `dht_read`
are not in the order line low, delay, line high, capture start, capture wait,
capture stop; the capture start precedes the delay. -/
theorem dht_read_spec_order_counterexample :
    ∃ r, dht_read ⟨some (capture_frame 0x019000C859 25), some 42⟩ 7 9
        = some r ∧
      r.2.filter Call.isAcquisition ≠ spec_acquisition_order ∧
      r.2.indexOf (Call.rmt_rx_start true) < r.2.indexOf (Call.ets_delay_us 800) :=
  ⟨({ err := ESP_OK, t := 200, h := 400 },
    dht_read_acquire ++
      [Call.dht_parse (dht_read_parse_arg (capture_frame 0x019000C859 25)),
       Call.vRingbufferReturnItem (some (capture_frame 0x019000C859 25))]),
   by decide, by decide, by decide⟩

/-- C10, amended: in every call of `dht_read` the acquisition steps are its first
six calls and occur in this order: line driven low, capture start, the delay
of 800 microseconds, line driven high, the capture wait (receive), capture
stop. -/
theorem dht_read_acquisition_order (cap : Capture) (t h : Int)
    (hbuf : ∀ buf, cap.items = some buf → 42 ≤ cap.item_size.getD 0 → 42 ≤ buf.length) :
    ∃ r, dht_read cap t h = some r ∧
      r.2.filter Call.isAcquisition
        = [Call.gpio_set_level 0, Call.rmt_rx_start true, Call.ets_delay_us 800,
           Call.gpio_set_level 1, Call.xRingbufferReceive 4, Call.rmt_rx_stop] ∧
      r.2.take 6
        = [Call.gpio_set_level 0, Call.rmt_rx_start true, Call.ets_delay_us 800,
           Call.gpio_set_level 1, Call.xRingbufferReceive 4, Call.rmt_rx_stop] := by
  obtain ⟨out, mid, hrun, hmid⟩ := dht_read_cases cap t h hbuf
  refine ⟨_, hrun, ?_, ?_⟩
  · rcases hmid with hm | ⟨items, hm⟩ <;> subst hm <;>
      simp [dht_read_acquire, List.filter, Call.isAcquisition]
  · simp [dht_read_acquire]

/-- Witness of the amended C10 on a valid capture of 42 items. -/
theorem dht_read_acquisition_order_witness :
    ∃ r, dht_read ⟨some (capture_frame 0x019000C859 25), some 42⟩ 7 9
        = some r ∧
      r.2.filter Call.isAcquisition
        = [Call.gpio_set_level 0, Call.rmt_rx_start true, Call.ets_delay_us 800,
           Call.gpio_set_level 1, Call.xRingbufferReceive 4, Call.rmt_rx_stop] ∧
      r.2.take 6
        = [Call.gpio_set_level 0, Call.rmt_rx_start true, Call.ets_delay_us 800,
           Call.gpio_set_level 1, Call.xRingbufferReceive 4, Call.rmt_rx_stop] :=
  dht_read_acquisition_order ⟨some (capture_frame 0x019000C859 25), some 42⟩ 7 9 (by intro buf hb _; cases hb; decide)

/-- C11: the result of `dht_parse` depends only on which pulses lie in the band
`65 .. 75`: two 40-pulse sequences that agree at every index on band
membership get the same status and the same `*t` and `*h`; and the status of
every 40-pulse sequence is `ESP_OK` or `ESP_ERR_INVALID_CRC`. -/
theorem dht_parse_band_only (items1 items2 : List rmt_item32_t) (t h : Int)
    (hlen1 : items1.length = 40) (hlen2 : items2.length = 40)
    (h15a : ∀ it ∈ items1, it.duration1 < 2 ^ 15) (h15b : ∀ it ∈ items2, it.duration1 < 2 ^ 15)
    (hband : ∀ (i : Nat) (h1 : i < items1.length) (h2 : i < items2.length),
      in_band items1[i].duration1 = in_band items2[i].duration1) :
    dht_parse items1 t h = dht_parse items2 t h ∧
    ∃ r, dht_parse items1 t h = some r ∧ (r.err = ESP_OK ∨ r.err = ESP_ERR_INVALID_CRC) := by
  refine ⟨?_, dht_parse_cases items1 t h (by omega)⟩
  obtain ⟨b1, hrun1, hb1, hz1⟩ := dht_parse_loop_band items1 hlen1 h15a
  obtain ⟨b2, hrun2, hb2, hz2⟩ := dht_parse_loop_band items2 hlen2 h15b
  have heq : b1 = b2 := by
    apply Nat.eq_of_testBit_eq
    intro j
    by_cases hj : j < 40
    · have e : 39 - (39 - j) = j := by omega
      have h1 := (congrArg b1.testBit e).symm.trans (hb1 (39 - j) (by omega))
      have h2 := (congrArg b2.testBit e).symm.trans (hb2 (39 - j) (by omega))
      rw [h1, h2]
      exact hband (39 - j) (by omega) (by omega)
    · rw [hz1 j (by omega), hz2 j (by omega)]
  rw [dht_parse_of_loop items1 t h b1 hrun1, dht_parse_of_loop items2 t h b2 hrun2, heq]

/-- Witness of C11: the frame `0x019000C859` spelled with short pulses of 25 and
with short pulses of 0 and 76 in place of two of them. -/
theorem dht_parse_band_only_witness :
    dht_parse (spell_frame 0x019000C859 25) 7 9
        = dht_parse ((spell_frame 0x019000C859 0).set 0 ⟨0, 0, 76, 0⟩) 7 9 ∧
    ∃ r, dht_parse (spell_frame 0x019000C859 25) 7 9 = some r ∧
      (r.err = ESP_OK ∨ r.err = ESP_ERR_INVALID_CRC) :=
  dht_parse_band_only (spell_frame 0x019000C859 25)
    ((spell_frame 0x019000C859 0).set 0 ⟨0, 0, 76, 0⟩) 7 9
    (by decide) (by decide) (by decide) (by decide) (by decide)

/-- C12: a single misclassified pulse is always caught. For every 40-bit frame
that `dht_check_checksum` accepts and every bit position `k` in `0 .. 39`, the
frame with bit `k` flipped is rejected; and a 40-pulse input that differs from
one parsed with `ESP_OK` in the band membership of exactly one pulse makes
`dht_parse` return `ESP_ERR_INVALID_CRC`, with `*t` and `*h` left as they were. -/
theorem dht_check_checksum_single_flip (frame k : Nat) (_h40 : frame < 2 ^ 40) (hk : k < 40)
    (hok : dht_check_checksum frame = ESP_OK)
    (items1 items2 : List rmt_item32_t) (t h : Int) (r1 : Outcome) (p : Nat)
    (hlen1 : items1.length = 40) (hlen2 : items2.length = 40)
    (h15a : ∀ it ∈ items1, it.duration1 < 2 ^ 15) (h15b : ∀ it ∈ items2, it.duration1 < 2 ^ 15)
    (hr1 : dht_parse items1 t h = some r1) (hok1 : r1.err = ESP_OK)
    (hdiff : ∀ (i : Nat) (h1 : i < items1.length) (h2 : i < items2.length),
      (in_band items1[i].duration1 ≠ in_band items2[i].duration1 ↔ i = p)) (hp : p < 40) :
    dht_check_checksum (flip_bit frame k) = ESP_ERR_INVALID_CRC ∧
    dht_parse items2 t h = some { err := ESP_ERR_INVALID_CRC, t := t, h := h } := by
  refine ⟨dht_check_checksum_flip_bit frame k hk hok, ?_⟩
  obtain ⟨b1, hrun1, hb1, hz1⟩ := dht_parse_loop_band items1 hlen1 h15a
  obtain ⟨b2, hrun2, hb2, hz2⟩ := dht_parse_loop_band items2 hlen2 h15b
  obtain ⟨b1', hrun1', hok1'⟩ := dht_parse_ok_inv items1 t h r1 hr1 hok1
  rw [hrun1] at hrun1'
  injection hrun1' with hbb
  subst hbb
  have heq : b2 = flip_bit b1 (39 - p) := by
    apply Nat.eq_of_testBit_eq
    intro j
    unfold flip_bit
    rw [Nat.testBit_xor, Nat.testBit_two_pow]
    by_cases hj : j < 40
    · have e : 39 - (39 - j) = j := by omega
      have h1 := (congrArg b1.testBit e).symm.trans (hb1 (39 - j) (by omega))
      have h2 := (congrArg b2.testBit e).symm.trans (hb2 (39 - j) (by omega))
      have hd := hdiff (39 - j) (by omega) (by omega)
      rw [h1, h2]
      by_cases hjp : 39 - j = p
      · have hne := hd.mpr hjp
        have : 39 - p = j := by omega
        simp only [this, decide_True]
        revert hne
        cases in_band items1[39 - j].duration1 <;> cases in_band items2[39 - j].duration1 <;>
          simp
      · have hsame : in_band items1[39 - j].duration1 = in_band items2[39 - j].duration1 := by
          by_contra hne
          exact hjp (hd.mp hne)
        have : ¬ 39 - p = j := by omega
        simp [hsame, this]
    · have : ¬ 39 - p = j := by omega
      rw [hz1 j (by omega), hz2 j (by omega)]
      simp [this]
  have hbad : dht_check_checksum b2 ≠ ESP_OK := by
    rw [heq, dht_check_checksum_flip_bit b1 (39 - p) (by omega) hok1']
    simp
  exact dht_parse_checksum_fail_aux items2 t h b2 hrun2 hbad

/-- Witness of C12: bit 3 of the accepted frame `0x019000C859` flipped, and its
pulse train with pulse 5 turned from short to long. -/
theorem dht_check_checksum_single_flip_witness :
    dht_check_checksum 0x019000C859 = ESP_OK ∧
    dht_check_checksum (flip_bit 0x019000C859 3) = ESP_ERR_INVALID_CRC ∧
    dht_parse ((spell_frame 0x019000C859 25).set 5 ⟨50, 0, 70, 1⟩) 7 9
      = some { err := ESP_ERR_INVALID_CRC, t := 7, h := 9 } :=
  ⟨by decide,
   dht_check_checksum_single_flip 0x019000C859 3 (by decide) (by decide) (by decide)
     (spell_frame 0x019000C859 25) ((spell_frame 0x019000C859 25).set 5 ⟨50, 0, 70, 1⟩) 7 9
     ⟨ESP_OK, 200, 400⟩ 5 (by decide) (by decide) (by decide) (by decide) (by decide) rfl
     (by decide) (by decide)⟩

/-- C13: for every 40-pulse sequence in which no duration lies in `65 .. 75` the
decoded frame is `0`, the checksum check passes, and `dht_parse` returns
`ESP_OK` with temperature `0` and humidity `0`. -/
theorem dht_parse_no_long_pulse (items : List rmt_item32_t) (t h : Int)
    (hlen : items.length = 40) (h15 : ∀ it ∈ items, it.duration1 < 2 ^ 15)
    (hshort : ∀ it ∈ items, ¬ (65 ≤ it.duration1 ∧ it.duration1 ≤ 75)) :
    dht_parse_loop 40 items 0 = some 0 ∧
    dht_check_checksum 0 = ESP_OK ∧
    dht_parse items t h = some { err := ESP_OK, t := 0, h := 0 } := by
  have hloop : dht_parse_loop 40 items 0 = some 0 := by
    apply dht_parse_loop_spelled items 0 hlen (by norm_num)
    intro i hi
    simp only [Nat.zero_testBit, Bool.false_eq_true, if_false]
    exact ⟨h15 _ (List.getElem_mem _), hshort _ (List.getElem_mem _)⟩
  have hok : dht_check_checksum 0 = ESP_OK := by decide
  refine ⟨hloop, hok, ?_⟩
  have hf : dht_parse_fields 0 = (0, 0) := by decide
  rw [dht_parse_of_loop items t h 0 hloop, hok, hf]
  simp

/-- Witness of C13: 40 pulses of duration 25, and 40 pulses of duration 0. -/
theorem dht_parse_no_long_pulse_witness :
    dht_parse (spell_frame 0 25) 7 9 = some { err := ESP_OK, t := 0, h := 0 } ∧
    dht_parse (spell_frame 0 0) 7 9 = some { err := ESP_OK, t := 0, h := 0 } :=
  ⟨(dht_parse_no_long_pulse (spell_frame 0 25) 7 9 (by decide) (by decide) (by decide)).2.2,
   (dht_parse_no_long_pulse (spell_frame 0 0) 7 9 (by decide) (by decide) (by decide)).2.2⟩

/-- C14: for a non-null capture that passes the length check of `dht_read` and
holds at least 42 items, `dht_read` calls the parser on a pointer through which
the `i`-th pulse read (`duration1` of the parser's item `i`, `i = 0 .. 39`) is
`duration0` of capture item `i + 2`; all 40 reads are defined, and the parse is
that of the first 42 items alone: no read falls outside them. -/
theorem dht_read_alignment (cap : Capture) (buf : List rmt_item32_t) (t h : Int)
    (hitems : cap.items = some buf) (hsize : 42 ≤ cap.item_size.getD 0)
    (hlen : 42 ≤ buf.length) (hwf : ∀ it ∈ buf, it.duration0 < 2 ^ 15) :
    (∃ out, dht_read cap t h
        = some (out, dht_read_acquire ++
            [Call.dht_parse (dht_read_parse_arg buf), Call.vRingbufferReturnItem (some buf)]) ∧
      dht_parse (dht_read_parse_arg buf) t h = some out) ∧
    40 ≤ (dht_read_parse_arg buf).length ∧
    (∀ (i : Nat) (hi : i < 40), ∃ it, (dht_read_parse_arg buf)[i]? = some it ∧
      it.duration1 = (buf[i + 2]).duration0) ∧
    dht_parse (dht_read_parse_arg buf) t h = dht_parse (dht_read_parse_arg (buf.take 42)) t h := by
  have hview : 40 ≤ (dht_read_parse_arg buf).length := by
    rw [dht_read_parse_arg_length]; omega
  refine ⟨?_, hview, ?_, ?_⟩
  · obtain ⟨r, hr⟩ := dht_parse_defined (dht_read_parse_arg buf) t h hview
    have hn : ¬ cap.item_size.getD 0 < 42 := by omega
    exact ⟨r, by simp [dht_read, hn, hitems, hr], hr⟩
  · intro i hi
    obtain ⟨it, hit, hd⟩ := dht_read_parse_arg_duration1 buf i (by omega)
    refine ⟨it, hit, ?_⟩
    rw [hd, Nat.mod_eq_of_lt (hwf _ (List.getElem_mem _))]
  · unfold dht_parse
    rw [dht_parse_loop_congr 40 _ _ _ (fun i hi => dht_read_parse_arg_take buf i hi hlen)]

/-- Witness of C14 on the 42-item capture of the frame `0x019000C859` (the last
pulse read is `duration0` of item 41, a long pulse), and on the same capture
followed by a 43rd item. -/
theorem dht_read_alignment_witness :
    (∃ it, (dht_read_parse_arg (capture_frame 0x019000C859 25))[39]? = some it ∧
      it.duration1 = 70) ∧
    dht_parse (dht_read_parse_arg
        (capture_frame 0x019000C859 25 ++ [(⟨70, 1, 70, 1⟩ : rmt_item32_t)])) 7 9
      = dht_parse (dht_read_parse_arg
          ((capture_frame 0x019000C859 25 ++ [(⟨70, 1, 70, 1⟩ : rmt_item32_t)]).take 42)) 7 9 :=
  ⟨((dht_read_alignment ⟨some (capture_frame 0x019000C859 25), some 42⟩
      (capture_frame 0x019000C859 25) 7 9 rfl (by decide) (by decide) (by decide)).2.2.1
      39 (by decide)).imp fun _ hit => ⟨hit.1, hit.2.trans (by decide)⟩,
   (dht_read_alignment
      ⟨some (capture_frame 0x019000C859 25 ++ [(⟨70, 1, 70, 1⟩ : rmt_item32_t)]), some 43⟩
      (capture_frame 0x019000C859 25 ++ [(⟨70, 1, 70, 1⟩ : rmt_item32_t)]) 7 9 rfl (by decide)
      (by decide) (by decide)).2.2.2⟩

/-- C15: the checksum does not catch every double misclassification. The pulse
trains of the frames `0x0100000001` (humidity `0x0100`, temperature 0, checksum
`0x01`) and `0x0001000001` (humidity `0x0001`) differ in the band membership of
exactly two pulses, both are parsed with `ESP_OK`, and the readings differ. -/
theorem dht_parse_double_flip_accepted :
    ∃ items1 items2 : List rmt_item32_t,
      items1.length = 40 ∧ items2.length = 40 ∧
      (∀ it ∈ items1, it.duration1 < 2 ^ 15) ∧ (∀ it ∈ items2, it.duration1 < 2 ^ 15) ∧
      (List.zip items1 items2).countP
          (fun p => in_band p.1.duration1 != in_band p.2.duration1) = 2 ∧
      dht_parse items1 7 9 = some { err := ESP_OK, t := 0, h := 0x0100 } ∧
      dht_parse items2 7 9 = some { err := ESP_OK, t := 0, h := 0x0001 } ∧
      ((0 : Int), (0x0100 : Int)) ≠ (0, 0x0001) :=
  ⟨spell_frame 0x0100000001 25, spell_frame 0x0001000001 25,
   by decide, by decide, by decide, by decide, by decide, by decide, by decide, by decide⟩

end AM2302
